import Mathlib

/-!
Verification of the echo-server example (`src/example/examples/echo-server.rs`)
of the rust-libp2p repository, against its natural-language specification.

The file shallowly embeds the orchestration logic of `echo-server.rs`:
the command-line address default, the upgrade-pipeline composition, the
per-connection error absorption of the accept loop, and the per-substream
length-delimited echo loop.  Library functionality that the example calls
but whose code is not part of the example file (the `or_upgrade` security
negotiation, `listen_on`, the `SimpleProtocol` protocol negotiation, and
the `length_delimited` codec) is modelled from the specification, as
documented on each such definition.
-/

/-- A byte.  We model bytes as natural numbers below 256 where it matters;
for the echo loop nothing depends on the range, so plain `Nat` is used. -/
abbrev Byte := Nat

/-- A byte sequence (the payload of one length-delimited frame). -/
abbrev Bytes := List Byte

/-! ## The echo loop (`loop_fn`, echo-server.rs lines 110–129)

Each iteration of the loop calls `socket.into_future()`, which yields
either a stream error, or a pair `(msg, rest)` where `msg` is
`Some(frame)` for a received frame or `None` for end-of-stream.  On
`Some(msg)` the loop sends the identical frame back (`rest.send(msg)`)
— a send that may itself fail — and continues; on `None` it breaks with
`Ok(())`.  We model the substream presented to the loop as a list of
socket events; each `recv` event carries the received frame and whether
the echoing send succeeds. -/

/-- One observable event on the framed substream, as seen by the loop in
`loop_fn`: a received frame (with the success of the subsequent echoing
send), end-of-stream (`msg == None`), or a read error. -/
inductive SocketEvent : Type
  | recv (msg : Bytes) (sendOk : Bool)
  | eof
  | recvFail
deriving DecidableEq, Repr

/-- The state in which the echo loop finishes (spec §4.6): `closedClean`
after `Loop::Break(())` on end-of-stream, `closedFaulted` after a read or
write error, `awaitingFrame` if the given event list is exhausted while
the loop is still running (the loop itself is unbounded). -/
inductive LoopEnd : Type
  | closedClean
  | closedFaulted
  | awaitingFrame
deriving DecidableEq, Repr

/-- The frames the echo loop of `loop_fn` writes back, in order, together
with the state in which it finishes.  Direct transcription of
echo-server.rs lines 110–129: `Some(msg)` with a successful send appends
`msg` to the output and continues (`Loop::Continue`); a failed send or a
read error aborts with the error (`closedFaulted`); `None` breaks the
loop cleanly (`Loop::Break(())`). -/
def echo_loop : List SocketEvent → List Bytes × LoopEnd
  | [] => ([], LoopEnd.awaitingFrame)
  | SocketEvent.recv msg true :: rest =>
      let r := echo_loop rest
      (msg :: r.1, r.2)
  | SocketEvent.recv _ false :: _ => ([], LoopEnd.closedFaulted)
  | SocketEvent.eof :: _ => ([], LoopEnd.closedClean)
  | SocketEvent.recvFail :: _ => ([], LoopEnd.closedFaulted)

/-- One primitive I/O action performed by the echo loop on its substream. -/
inductive IoAction : Type
  | readFrame (msg : Bytes)
  | readEof
  | readFault
  | writeFrame (msg : Bytes)
  | writeFault
deriving DecidableEq, Repr

/-- The sequence of I/O actions the echo loop performs on the substream,
in program order: after reading `Some(msg)` it immediately writes `msg`
back on the same substream (`rest.send(msg)`) before the next
`into_future()` read. -/
def echo_trace : List SocketEvent → List IoAction
  | [] => []
  | SocketEvent.recv msg true :: rest =>
      IoAction.readFrame msg :: IoAction.writeFrame msg :: echo_trace rest
  | SocketEvent.recv msg false :: _ =>
      [IoAction.readFrame msg, IoAction.writeFault]
  | SocketEvent.eof :: _ => [IoAction.readEof]
  | SocketEvent.recvFail :: _ => [IoAction.readFault]

/-- The event list describing a well-behaved session: the client sends the
frames `bs` in order and then closes the stream; every echoing send
succeeds. -/
def sessionEvents (bs : List Bytes) : List SocketEvent :=
  bs.map (fun b => SocketEvent.recv b true) ++ [SocketEvent.eof]

/-! ## Length-delimited framing

`length_delimited::Framed::new(socket)` (echo-server.rs line 81) frames
the substream into discrete length-prefixed messages; the codec itself
lives in the `tokio_io` library, outside this repository's example file. -/

/-- Modelled from the spec: the length-delimited framing applied by
`length_delimited::Framed::new` (tokio_io library, not under src/):
"each message is delimited by an explicit length prefix".  The length
prefix is modelled as a single leading number carrying the payload
length. -/
def encodeFrame (b : Bytes) : Bytes := b.length :: b

/-- Modelled from the spec: a sequence of messages on the wire is the
concatenation of their length-delimited encodings. -/
def encodeFrames (bs : List Bytes) : Bytes := (bs.map encodeFrame).flatten

/-- Modelled from the spec: decoding a wire byte sequence back into
length-delimited frames.  `fuel` bounds the recursion (any value at least
the number of encoded frames suffices); returns `none` on truncated
input. -/
def decodeFrames : Nat → Bytes → Option (List Bytes)
  | _, [] => some []
  | 0, _ :: _ => none
  | fuel + 1, n :: rest =>
      if n ≤ rest.length then
        match decodeFrames fuel (rest.drop n) with
        | some fs => some (rest.take n :: fs)
        | none => none
      else none

/-- Decoding inverts encoding: the length-delimited codec preserves frame
boundaries exactly. -/
theorem decode_encodeFrames (bs : List Bytes) (fuel : Nat)
    (hfuel : bs.length ≤ fuel) :
    decodeFrames fuel (encodeFrames bs) = some bs := by
  induction bs generalizing fuel with
  | nil =>
      cases fuel <;> simp [encodeFrames, decodeFrames]
  | cons b bs ih =>
      cases fuel with
      | zero => simp at hfuel
      | succ fuel =>
        have hlen : b.length ≤ (b ++ encodeFrames bs).length := by
          simp
        have hdrop : (b ++ encodeFrames bs).drop b.length = encodeFrames bs := by
          simp
        have htake : (b ++ encodeFrames bs).take b.length = b := by
          simp
        have hfuel' : bs.length ≤ fuel := Nat.succ_le_succ_iff.mp hfuel
        simp only [encodeFrames, List.map_cons, List.flatten_cons, encodeFrame]
        show decodeFrames (fuel + 1) (b.length :: (b ++ (bs.map encodeFrame).flatten))
          = some (b :: bs)
        rw [decodeFrames]
        simp only [show (bs.map encodeFrame).flatten = encodeFrames bs from rfl,
          hlen, if_pos, hdrop, htake, ih fuel hfuel']

/-! ## The accept loop and per-connection error absorption
(echo-server.rs lines 97–141) -/

/-- The outcome of one connection's whole upgrade-and-echo pipeline, as
seen by the closure of `for_each`: `Except.error e` when any stage of
that connection's pipeline (negotiation, handshake, I/O) fails, `ok`
otherwise. -/
abbrev ConnResult := Except String Unit

/-- The `.then` closure at lines 135–140: if the connection's pipeline
ended in an error, the error is printed ("Error while processing client")
and the result handed back to `for_each` is `Ok(())`.  Returns the log
lines emitted, paired with the absorbed result. -/
def absorb_errors (res : ConnResult) : List String × ConnResult :=
  match res with
  | Except.error err => (["Error while processing client: " ++ err], Except.ok ())
  | Except.ok () => ([], Except.ok ())

/-- `Stream::for_each` over the connection sequence (line 98): connections
are handled in arrival order, each through `absorb_errors`; `for_each`
itself stops early with an error only if the closure's future errors.
Returns the number of connections handled, the log lines emitted, and
the loop's final result. -/
def accept_loop : List ConnResult → Nat × List String × ConnResult
  | [] => (0, [], Except.ok ())
  | res :: rest =>
      let a := absorb_errors res
      match a.2 with
      | Except.ok () =>
          let r := accept_loop rest
          (r.1 + 1, a.1 ++ r.2.1, r.2.2)
      | Except.error e => (1, a.1, Except.error e)

/-- The log line `absorb_errors` emits for a connection result. -/
def errorReport (res : ConnResult) : List String :=
  match res with
  | Except.error err => ["Error while processing client: " ++ err]
  | Except.ok () => []

/-! ## Security-mode selection (echo-server.rs lines 51–63) -/

/-- The two security modes composed by `plain_text.or_upgrade(secio)`. -/
inductive SecurityMode : Type
  | plaintext
  | secio
deriving DecidableEq, Repr

/-- The security modes the server itself supports (lines 51–63):
`PlainTextConfig` combined with `SecioConfig` through `or_upgrade`. -/
def localModes : List SecurityMode := [SecurityMode.plaintext, SecurityMode.secio]

/-- Modelled from the spec: the selection rule of the security upgrade
negotiator built by `or_upgrade` (libp2p swarm library, not under src/):
"selects the first mutually-supported mode using a deterministic priority
order (here: prefer the no-op mode only if the remote also supports only
that; otherwise select the authenticated/encrypted mode)"; with no
mutually supported mode the negotiation fails (`none`).  `remote` is the
remote's capability announcement. -/
def or_upgrade_select (remote : List SecurityMode) : Option SecurityMode :=
  if SecurityMode.secio ∈ remote then some SecurityMode.secio
  else if SecurityMode.plaintext ∈ remote then some SecurityMode.plaintext
  else none

/-! ## The upgrade pipeline (echo-server.rs lines 47–82) -/

/-- The four upgrade stages of the spec's lifecycle invariant. -/
inductive UpgradeStage : Type
  | security
  | multiplex
  | protocol
  | application
deriving DecidableEq, Repr

/-- The stage order fixed by the composition in `main` (lines 47–82):
`TcpConfig` upgraded with plaintext-or-secio, then with
`MultiplexConfig` (turned into a transport by `into_connection_reuse`),
then with the echo `SimpleProtocol`, whose handler runs the application
session. -/
def pipelineStages : List UpgradeStage :=
  [UpgradeStage.security, UpgradeStage.multiplex,
   UpgradeStage.protocol, UpgradeStage.application]

/-- Modelled from the spec: the semantics of the `with_upgrade` chain
(swarm library, not under src/): stages are applied in composition order;
"each stage either fully succeeds (producing the next-stage object) or
fails and terminates only the connection/substream undergoing that
stage", so later stages are not attempted after a failure.  `ok s` says
whether stage `s` succeeds on the connection at hand.  Returns the stages
attempted, in order, and whether the whole pipeline succeeded. -/
def run_upgrades (ok : UpgradeStage → Bool) : List UpgradeStage → List UpgradeStage × Bool
  | [] => ([], true)
  | s :: rest =>
      if ok s then
        let r := run_upgrades ok rest
        (s :: r.1, r.2)
      else ([s], false)

/-! ## Listening (echo-server.rs lines 89–94) -/

/-- A structured network address, abstracted to its textual form. -/
abbrev Multiaddr := String

/-- The outcome of `listen_on` together with the sockets it leaves
bound. -/
structure ListenOutcome : Type where
  result : Except (Unit × Multiaddr) Multiaddr
  boundSockets : List Multiaddr
deriving Repr

/-- Modelled from the spec: `Transport::listen_on` of the composed
transport (libp2p library, not under src/).  Per the source comment at
lines 91–93, "if the multiaddr protocol exists but is not supported, then
we get an error containing the transport and the original multiaddress";
per the spec, the unsupported case "does not leave a bound socket
behind".  `supported` abstracts which protocol combinations the TCP
transport accepts; the transport value itself is abstracted to `()`. -/
def listen_on (supported : Multiaddr → Bool) (addr : Multiaddr) : ListenOutcome :=
  if supported addr then
    { result := Except.ok addr, boundSockets := [addr] }
  else
    { result := Except.error ((), addr), boundSockets := [] }

/-- The `map_err(|(_, addr)| addr)` applied at line 94: the error is
reduced to the original attempted address. -/
def listen_result (supported : Multiaddr → Bool) (addr : Multiaddr) :
    Except Multiaddr Multiaddr :=
  match (listen_on supported addr).result with
  | Except.ok a => Except.ok a
  | Except.error p => Except.error p.2

/-! ## The bootstrap address (echo-server.rs line 40) -/

/-- The fixed default listen address of line 40. -/
def defaultListenAddr : Multiaddr := "/ip4/0.0.0.0/tcp/10333"

/-- `env::args().nth(1).unwrap_or("/ip4/0.0.0.0/tcp/10333")` (line 40):
the first command-line argument when supplied, else the default. -/
def listen_addr (arg : Option String) : Multiaddr :=
  arg.getD defaultListenAddr

/-! ## Protocol negotiation (echo-server.rs lines 76–82) -/

/-- The one application-protocol identifier registered at line 76. -/
def echoProtocolName : String := "/echo/1.0.0"

/-- The protocols configured on the transport: exactly the one
`SimpleProtocol::new("/echo/1.0.0", ...)`. -/
def registeredProtocols : List String := [echoProtocolName]

/-- The handler a successfully negotiated substream is handed to: the
closure at lines 76–82, which wraps the socket in length-delimited
framing and whose output is driven by the echo loop. -/
inductive SubstreamHandler : Type
  | lengthDelimitedEcho
deriving DecidableEq, Repr

/-- Modelled from the spec: per-substream protocol negotiation for
`SimpleProtocol` (swarm library, not under src/): "the first identifier
supported by both sides (by exact string match here — one identifier is
configured: the echo protocol) is selected"; on success the substream is
handed to the handler factory of line 76.  `proposals` are the
identifiers proposed by the remote, in order. -/
def negotiate_protocol (proposals : List String) :
    Option (String × SubstreamHandler) :=
  match proposals.find? (fun p => registeredProtocols.contains p) with
  | some p => some (p, SubstreamHandler.lengthDelimitedEcho)
  | none => none

/-! ## Claim theorems -/

/-- C1: Echo fidelity — for every byte sequence B (the empty one included)
received as one length-delimited frame on a negotiated substream, the echo
loop writes exactly B back as one frame on the same substream before
reading the next frame: the I/O trace puts `writeFrame B` directly after
`readFrame B` and before any further action, and B heads the echoed
output, leaving the rest of the session unchanged. -/
theorem C1_echo_fidelity (B : Bytes) (rest : List SocketEvent) :
    echo_trace (SocketEvent.recv B true :: rest)
      = IoAction.readFrame B :: IoAction.writeFrame B :: echo_trace rest
    ∧ (echo_loop (SocketEvent.recv B true :: rest)).1
      = B :: (echo_loop rest).1
    ∧ (echo_loop (SocketEvent.recv B true :: rest)).2 = (echo_loop rest).2 :=
  ⟨rfl, rfl, rfl⟩

/-- C2: Error isolation / durable accept loop — whatever the per-connection
pipeline results are, the accept loop handles every connection, ends in
`Ok` (it never terminates because one connection failed), and every
per-connection error is reported in the log. -/
theorem C2_error_isolation (results : List ConnResult) :
    (accept_loop results).1 = results.length
    ∧ (accept_loop results).2.2 = Except.ok ()
    ∧ (accept_loop results).2.1 = (results.map errorReport).flatten := by
  induction results with
  | nil => simp [accept_loop]
  | cons r rest ih =>
      cases r with
      | ok u =>
          cases u
          simp [accept_loop, absorb_errors, errorReport, ih.1, ih.2.1, ih.2.2]
      | error e =>
          simp [accept_loop, absorb_errors, errorReport, ih.1, ih.2.1, ih.2.2]

/-- C3: Security-mode selection priority — whenever the remote announces
support for the encrypted (secio) mode, secio is selected, and the
plaintext (no-op) mode is selected only when the remote supports
plaintext and not secio. -/
theorem C3_security_priority (remote : List SecurityMode) :
    (SecurityMode.secio ∈ remote →
      or_upgrade_select remote = some SecurityMode.secio)
    ∧ (or_upgrade_select remote = some SecurityMode.plaintext →
        SecurityMode.secio ∉ remote ∧ SecurityMode.plaintext ∈ remote) := by
  constructor
  · intro h
    simp [or_upgrade_select, h]
  · intro h
    by_cases hs : SecurityMode.secio ∈ remote
    · simp [or_upgrade_select, hs] at h
    · by_cases hp : SecurityMode.plaintext ∈ remote
      · exact ⟨hs, hp⟩
      · simp [or_upgrade_select, hs, hp] at h

/-- Witness for C3 at a concrete announcement: a remote supporting both
modes is given secio. -/
theorem C3_security_priority_witness :
    or_upgrade_select [SecurityMode.plaintext, SecurityMode.secio]
      = some SecurityMode.secio :=
  (C3_security_priority [SecurityMode.plaintext, SecurityMode.secio]).1
    (by decide)

/-- C4: Zero-length frames are messages, not end-of-stream — a received
frame of length 0 is echoed back as an empty frame and the session goes
on exactly as it would after any message (its final state is whatever the
remaining events dictate); the loop reaches the clean-closed state at the
head of the event list only on the distinct end-of-stream signal. -/
theorem C4_zero_length_frame (rest : List SocketEvent) :
    echo_trace (SocketEvent.recv [] true :: rest)
      = IoAction.readFrame [] :: IoAction.writeFrame [] :: echo_trace rest
    ∧ (echo_loop (SocketEvent.recv [] true :: rest)).1
      = [] :: (echo_loop rest).1
    ∧ (echo_loop (SocketEvent.recv [] true :: rest)).2 = (echo_loop rest).2
    ∧ (echo_loop (SocketEvent.eof :: rest)).2 = LoopEnd.closedClean :=
  ⟨rfl, rfl, rfl, rfl⟩

/-- C5: Graceful termination — when the next event on the substream is
end-of-stream (no pending message), the echo loop breaks out cleanly:
it echoes nothing further, ends in the clean-closed state, and performs
no action after observing end-of-stream. -/
theorem C5_graceful_termination (rest : List SocketEvent) :
    echo_loop (SocketEvent.eof :: rest) = ([], LoopEnd.closedClean)
    ∧ echo_trace (SocketEvent.eof :: rest) = [IoAction.readEof] :=
  ⟨rfl, rfl⟩

/-- C6: Frame-boundary and order preservation — a session that delivers
the frames bs in order and then closes is echoed back as exactly bs, in
order, ending cleanly; re-encoding the echoed frames on the wire decodes
to the identical frame sequence (no coalescing, no splitting). -/
theorem C6_order_preservation (bs : List Bytes) :
    (echo_loop (sessionEvents bs)).1 = bs
    ∧ (echo_loop (sessionEvents bs)).2 = LoopEnd.closedClean
    ∧ decodeFrames bs.length (encodeFrames (echo_loop (sessionEvents bs)).1)
        = some bs := by
  have h : echo_loop (sessionEvents bs) = (bs, LoopEnd.closedClean) := by
    induction bs with
    | nil => rfl
    | cons b bs ih =>
        show echo_loop (SocketEvent.recv b true :: sessionEvents bs)
          = (b :: bs, LoopEnd.closedClean)
        simp [echo_loop, ih]
  refine ⟨by rw [h], by rw [h], ?_⟩
  rw [h]
  exact decode_encodeFrames bs bs.length le_rfl

/-- C7: Upgrade-stage order invariant — for any pattern of per-stage
successes, the stages attempted form an order-preserving prefix of
[security, multiplex, protocol, application]; the pipeline produces the
application session exactly when every stage succeeds, and then all four
stages were attempted in order; a stage failure stops the pipeline at the
failing stage. -/
theorem C7_stage_order (ok : UpgradeStage → Bool) :
    (run_upgrades ok pipelineStages).1
      = pipelineStages.take (run_upgrades ok pipelineStages).1.length
    ∧ ((run_upgrades ok pipelineStages).2 = true ↔ pipelineStages.all ok = true)
    ∧ ((run_upgrades ok pipelineStages).2 = true →
        (run_upgrades ok pipelineStages).1 = pipelineStages) := by
  cases h1 : ok UpgradeStage.security <;>
  cases h2 : ok UpgradeStage.multiplex <;>
  cases h3 : ok UpgradeStage.protocol <;>
  cases h4 : ok UpgradeStage.application <;>
  simp [run_upgrades, pipelineStages, List.all, h1, h2, h3, h4]

/-- Witness for C7 at a connection on which every stage succeeds: all four
stages run, in order. -/
theorem C7_stage_order_witness :
    (run_upgrades (fun _ => true) pipelineStages).1 = pipelineStages :=
  (C7_stage_order (fun _ => true)).2.2 rfl

/-- C8: Unsupported address rejection — listening on an address the
transport does not support yields an error carrying the original
attempted address (after the source's `map_err`), and leaves no bound
socket behind. -/
theorem C8_unsupported_address (supported : Multiaddr → Bool)
    (addr : Multiaddr) (h : supported addr = false) :
    listen_result supported addr = Except.error addr
    ∧ (listen_on supported addr).boundSockets = [] := by
  simp [listen_result, listen_on, h]

/-- Witness for C8 at a concrete unsupported address. -/
theorem C8_unsupported_address_witness :
    listen_result (fun _ => false) "/unknown-proto/1.2.3.4"
      = Except.error "/unknown-proto/1.2.3.4"
    ∧ (listen_on (fun _ => false) "/unknown-proto/1.2.3.4").boundSockets
      = [] :=
  C8_unsupported_address (fun _ => false) "/unknown-proto/1.2.3.4" rfl

/-- C9: Default bootstrap address — with no command-line argument the
server listens on "/ip4/0.0.0.0/tcp/10333"; with an argument, exactly
that address is used. -/
theorem C9_default_address :
    listen_addr none = "/ip4/0.0.0.0/tcp/10333"
    ∧ ∀ a : String, listen_addr (some a) = a :=
  ⟨rfl, fun _ => rfl⟩

/-- C10: Single configured application protocol — exactly the one
identifier "/echo/1.0.0" is registered; negotiation succeeds only when
the remote proposes that exact identifier, and every successful
negotiation hands the substream to the length-delimited echo handler. -/
theorem C10_single_protocol (proposals : List String) :
    registeredProtocols = ["/echo/1.0.0"]
    ∧ ((negotiate_protocol proposals).isSome = true →
        echoProtocolName ∈ proposals)
    ∧ (∀ p hnd, negotiate_protocol proposals = some (p, hnd) →
        p = echoProtocolName ∧ hnd = SubstreamHandler.lengthDelimitedEcho) := by
  refine ⟨rfl, ?_, ?_⟩
  · intro h
    unfold negotiate_protocol at h
    cases hf : proposals.find? (fun p => registeredProtocols.contains p) with
    | none =>
        rw [hf] at h
        simp at h
    | some p =>
        have hp : registeredProtocols.contains p = true := List.find?_some hf
        have hmem : p ∈ proposals := List.mem_of_find?_eq_some hf
        have hpe : p = echoProtocolName := by
          simpa [registeredProtocols] using hp
        exact hpe ▸ hmem
  · intro p hnd hsome
    cases hnd
    unfold negotiate_protocol at hsome
    cases hf : proposals.find? (fun q => registeredProtocols.contains q) with
    | none =>
        rw [hf] at hsome
        simp at hsome
    | some q =>
        have hq : registeredProtocols.contains q = true := List.find?_some hf
        have hqe : q = echoProtocolName := by
          simpa [registeredProtocols] using hq
        rw [hf] at hsome
        simp at hsome
        exact ⟨hsome ▸ hqe, rfl⟩

/-- Witness for C10 at a concrete proposal list containing the echo
identifier. -/
theorem C10_single_protocol_witness :
    echoProtocolName ∈ ["/foo/1.0.0", "/echo/1.0.0"] :=
  (C10_single_protocol ["/foo/1.0.0", "/echo/1.0.0"]).2.1 (by decide)
